import Mathlib

/-!
Shallow embedding of the auction-bidding backend (NestJS/TypeScript source)
for checking its natural-language specification.

The embedding models, faithfully to the source:
* the Mongo data model (`Auction`, `Bid`, users) as in
  `src/backend/src/database/schemas/*.schema.ts`;
* `BidProcessorService.processBid` (the queue-consumer bid arbiter),
  `BidProcessorService.handleFailedBid` / `handleSuccessfulBid`, and the
  RabbitMQ consumer wrapper ack/nack behaviour;
* `BidsService.placeBid` (the HTTP fallback path);
* `RedisService.acquireLock` / `releaseLock` and the lock use in `processBid`;
* `WebSocketConnectionLimitService.checkConnectionLimit` / `trackConnection`
  (per-address path, as invoked by the gateway before authentication);
* `WebsocketGateway.handlePlaceBid` and `RabbitmqService.publishToExchange`;
* `AuctionsService.create`.

Times are integers (epoch instants); monetary amounts are integers (minor
currency units), matching the JS numbers used by the source.
-/

namespace AuctionBidding

/-- `AuctionStatus` enum from `common/enums/auction.enum.ts`. -/
inductive AuctionStatus where
  | PENDING
  | ACTIVE
  | ENDED
  deriving DecidableEq, Repr

/-- `BidStatus` enum from `common/enums/auction.enum.ts`. -/
inductive BidStatus where
  | PENDING
  | ACCEPTED
  | REJECTED
  | OUTBID
  deriving DecidableEq, Repr

/-- Auction record, from `database/schemas/auction.schema.ts`.
Mongo document ids are modelled as naturals. -/
structure Auction where
  auctionId : Nat
  carId : String
  title : String
  description : String
  startTime : Int
  endTime : Int
  startingBid : Int
  currentHighestBid : Int
  winnerId : Option Nat
  status : AuctionStatus
  bidCount : Nat
  deriving DecidableEq, Repr

/-- Bid record, from `database/schemas/bid.schema.ts`. -/
structure Bid where
  bidId : Nat
  userId : Nat
  auctionId : Nat
  bidAmount : Int
  timestamp : Int
  isWinning : Bool
  status : BidStatus
  deriving DecidableEq, Repr

/-- The durable store: auction collection, bid collection, the set of
existing user ids, and the next fresh bid document id. -/
structure Db where
  auctions : List Auction
  bids : List Bid
  users : List Nat
  nextBidId : Nat
  deriving DecidableEq, Repr

/-- `auctionModel.findById` / `findOne`. -/
def findAuction (db : Db) (aid : Nat) : Option Auction :=
  db.auctions.find? (fun a => a.auctionId == aid)

/-- Bid envelope consumed by the processor, as assembled by
`WebsocketGateway.handlePlaceBid`. -/
structure BidEnvelope where
  auctionId : Nat
  userId : Nat
  bidAmount : Int
  username : String
  socketId : Nat
  deriving DecidableEq, Repr

/-- Rejection causes raised inside `BidProcessorService.processBid`. -/
inductive BidError where
  | lockNotAcquired
  | auctionNotFound
  | auctionNotActive
  | auctionNotStarted
  | auctionEnded
  | bidTooLow (minBid : Int)
  | userNotFound
  | updateFailed
  deriving DecidableEq, Repr

/-- The `error.message` strings thrown by `processBid`. -/
def BidError.message : BidError → String
  | .lockNotAcquired => "Could not acquire lock for bid processing"
  | .auctionNotFound => "Auction not found"
  | .auctionNotActive => "Auction is not active"
  | .auctionNotStarted => "Auction has not started yet"
  | .auctionEnded => "Auction has ended"
  | .bidTooLow m => "Bid must be at least $" ++ toString m
  | .userNotFound => "User not found"
  | .updateFailed => "Failed to update auction"

/-- `const minBidAmount = (auction.currentHighestBid || auction.startingBid) + 100;`
JavaScript `||` falls back to `startingBid` exactly when
`currentHighestBid` is `0` (falsy). -/
def minBidAmount (a : Auction) : Int :=
  (if a.currentHighestBid != 0 then a.currentHighestBid else a.startingBid) + 100

/-- Validation phase of `processBid` (steps 1-4 in the source comments):
auction lookup, status check, time-window check, amount check, user check,
in source order. -/
def processBidValidate (db : Db) (now : Int) (e : BidEnvelope) :
    Except BidError Auction :=
  match findAuction db e.auctionId with
  | none => .error .auctionNotFound
  | some auction =>
    if auction.status != .ACTIVE then .error .auctionNotActive
    else if now < auction.startTime then .error .auctionNotStarted
    else if now > auction.endTime then .error .auctionEnded
    else if e.bidAmount < minBidAmount auction then
      .error (.bidTooLow (minBidAmount auction))
    else if !(db.users.contains e.userId) then .error .userNotFound
    else .ok auction

/-- The new bid document created at step 5 of `processBid`:
`{ userId, auctionId, bidAmount, timestamp: now, isWinning: true,
status: ACCEPTED }`. -/
def newBidRecord (db : Db) (now : Int) (e : BidEnvelope) : Bid :=
  { bidId := db.nextBidId
    userId := e.userId
    auctionId := e.auctionId
    bidAmount := e.bidAmount
    timestamp := now
    isWinning := true
    status := .ACCEPTED }

/-- Per-document effect of step 6 of `processBid`:
`updateMany({auctionId, isWinning: true, _id: {$ne: newBid._id}},
{isWinning: false, status: OUTBID})`. -/
def sweepFn (aid nid : Nat) (b : Bid) : Bid :=
  if b.auctionId == aid && b.isWinning && b.bidId != nid then
    { b with isWinning := false, status := .OUTBID }
  else b

/-- Step 6 of `processBid` applied to the whole bid collection. -/
def outbidSweep (bids : List Bid) (aid nid : Nat) : List Bid :=
  bids.map (sweepFn aid nid)

/-- Step 7 of `processBid` (also `AuctionsService.updateHighestBid`):
`findByIdAndUpdate(auctionId, {$set: {currentHighestBid, winnerId},
$inc: {bidCount: 1}})`. -/
def updateAuctionHighest (auctions : List Auction) (aid : Nat)
    (amount : Int) (uid : Nat) : List Auction :=
  auctions.map (fun a =>
    if a.auctionId == aid then
      { a with currentHighestBid := amount, winnerId := some uid,
               bidCount := a.bidCount + 1 }
    else a)

/-- Write phase of `processBid` (steps 5-7): insert the new bid, run the
outbid sweep, update the auction document. -/
def processBidWrite (db : Db) (now : Int) (e : BidEnvelope) : Db :=
  let nb := newBidRecord db now e
  { db with
    bids := outbidSweep (db.bids ++ [nb]) e.auctionId nb.bidId
    auctions := updateAuctionHighest db.auctions e.auctionId e.bidAmount e.userId
    nextBidId := db.nextBidId + 1 }

/-- `BidProcessorService.processBid`: lock gate, validation, write, and the
`findByIdAndUpdate` null check (`Failed to update auction`). Returns the
updated store and the updated auction document on success. -/
def processBid (db : Db) (now : Int) (lockAcquired : Bool) (e : BidEnvelope) :
    Except BidError (Db × Auction) :=
  if !lockAcquired then .error .lockNotAcquired
  else
    match processBidValidate db now e with
    | .error err => .error err
    | .ok _ =>
      let db' := processBidWrite db now e
      match findAuction db' e.auctionId with
      | none => .error .updateFailed
      | some updated => .ok (db', updated)

/-- The store state after a `processBid` run: updated on success, unchanged
when any exception was raised (all rejections occur before the first write
in the sequential model). -/
def processBidState (db : Db) (now : Int) (lockAcquired : Bool)
    (e : BidEnvelope) : Db :=
  match processBid db now lockAcquired e with
  | .ok p => p.1
  | .error _ => db

/-! ### Notifications, audit messages and the queue consumer wrapper
(`RabbitmqService.startBidProcessingConsumer`, `handleSuccessfulBid`,
`handleFailedBid`) -/

/-- A message published on the notifications exchange. -/
structure QueueNotice where
  ntype : String
  userId : Option Nat
  auctionId : Nat
  message : String
  deriving DecidableEq, Repr

/-- An entry published on the audit exchange. -/
structure AuditLog where
  action : String
  auctionId : Nat
  userId : Nat
  success : Bool
  errorDetail : Option String
  deriving DecidableEq, Repr

/-- `BidProcessorService.handleFailedBid`: the BID_FAILED notification to the
originating user and the failure audit log. -/
def handleFailedBid (e : BidEnvelope) (errorMessage : String) :
    List QueueNotice × List AuditLog :=
  ([{ ntype := "BID_FAILED"
      userId := some e.userId
      auctionId := e.auctionId
      message := "Failed to place bid: " ++ errorMessage }],
   [{ action := "BID_FAILED"
      auctionId := e.auctionId
      userId := e.userId
      success := false
      errorDetail := some errorMessage }])

/-- `BidProcessorService.handleSuccessfulBid`: the BID_SUCCESS notification,
the OUTBID_NOTIFICATION broadcast, and the BID_PLACED audit entry. -/
def handleSuccessfulBid (e : BidEnvelope) (updated : Auction) :
    List QueueNotice × List AuditLog :=
  ([{ ntype := "BID_SUCCESS"
      userId := some e.userId
      auctionId := e.auctionId
      message := "Your bid of $" ++ toString e.bidAmount ++
        " has been placed successfully on \"" ++ updated.title ++ "\"" },
    { ntype := "OUTBID_NOTIFICATION"
      userId := none
      auctionId := e.auctionId
      message := "You have been outbid on \"" ++ updated.title ++
        "\". New highest bid: $" ++ toString e.bidAmount }],
   [{ action := "BID_PLACED"
      auctionId := e.auctionId
      userId := e.userId
      success := true
      errorDetail := none }])

/-- What the consumer does with the queue message:
`channel.ack(msg)` on normal return, `channel.nack(msg, false, false)`
(no requeue) when the handler throws. -/
inductive ConsumerAction where
  | ack
  | nackNoRequeue
  deriving DecidableEq, Repr

/-- Combined outcome of one dequeued bid message. -/
structure ProcessResult where
  db : Db
  action : ConsumerAction
  notices : List QueueNotice
  audits : List AuditLog
  lockReleased : Bool
  deriving DecidableEq, Repr

/-- One dequeued message end to end: `processBid` inside the consumer of
`startBidProcessingConsumer`. On success the post-processing of
`handleSuccessfulBid` runs and the message is acked; on any exception
`handleFailedBid` runs in the catch block, the error is rethrown, and the
consumer nacks without requeue. The `finally` block releases the lock on
every path. -/
def consumeBidMessage (db : Db) (now : Int) (lockAcquired : Bool)
    (e : BidEnvelope) : ProcessResult :=
  match processBid db now lockAcquired e with
  | .ok (db', updated) =>
    let (ns, logs) := handleSuccessfulBid e updated
    { db := db', action := .ack, notices := ns, audits := logs,
      lockReleased := true }
  | .error err =>
    let (ns, logs) := handleFailedBid e err.message
    { db := db, action := .nackNoRequeue, notices := ns, audits := logs,
      lockReleased := true }

/-! ### The HTTP fallback path (`BidsService.placeBid`, POST /bids) -/

/-- `PlaceBidDto` from `bids/dto/create-bid.dto.ts`. -/
structure PlaceBidDto where
  auctionId : Nat
  bidAmount : Int
  userId : Nat
  deriving DecidableEq, Repr

/-- The `BadRequestException` / `NotFoundException` causes raised by
`BidsService.placeBid`. -/
inductive PlaceBidError where
  | auctionNotFound
  | auctionNotActive
  | auctionNotRunning
  | bidNotHigher (chb : Int)
  | alreadyHighestBidder
  deriving DecidableEq, Repr

/-- Write phase of `BidsService.placeBid`: mark the previous winning bid
(if any) `isWinning: false` (its `status` is left unchanged), create the new
bid (`isWinning: true, status: ACCEPTED`), then
`auctionsService.updateHighestBid`. -/
def placeBidWrite (db : Db) (now : Int) (dto : PlaceBidDto)
    (currentWinning : Option Bid) : Db :=
  let bids1 :=
    match currentWinning with
    | some cw => db.bids.map (fun b =>
        if b.bidId == cw.bidId then { b with isWinning := false } else b)
    | none => db.bids
  let nb : Bid :=
    { bidId := db.nextBidId
      userId := dto.userId
      auctionId := dto.auctionId
      bidAmount := dto.bidAmount
      timestamp := now
      isWinning := true
      status := .ACCEPTED }
  { db with
    bids := bids1 ++ [nb]
    auctions := updateAuctionHighest db.auctions dto.auctionId dto.bidAmount dto.userId
    nextBidId := db.nextBidId + 1 }

/-- `BidsService.placeBid`: validation (`findOne`, status, window,
`bidAmount <= currentHighestBid`, already-highest-bidder) then the
transactional write. -/
def placeBid (db : Db) (now : Int) (dto : PlaceBidDto) :
    Except PlaceBidError Db :=
  match findAuction db dto.auctionId with
  | none => .error .auctionNotFound
  | some auction =>
    if auction.status != .ACTIVE then .error .auctionNotActive
    else if now < auction.startTime || now > auction.endTime then
      .error .auctionNotRunning
    else if dto.bidAmount ≤ auction.currentHighestBid then
      .error (.bidNotHigher auction.currentHighestBid)
    else
      let currentWinning :=
        db.bids.find? (fun b => b.auctionId == dto.auctionId && b.isWinning)
      match currentWinning with
      | some cw =>
        if cw.userId == dto.userId then .error .alreadyHighestBidder
        else .ok (placeBidWrite db now dto (some cw))
      | none => .ok (placeBidWrite db now dto none)

/-! ### Redis distributed lock (`RedisService.acquireLock` / `releaseLock`)
and its use by `processBid` -/

/-- A plain Redis key/value store (lock TTLs are not needed for the
ownership question). -/
structure RedisKV where
  entries : List (String × String)
  deriving DecidableEq, Repr

/-- `SET key value PX ttl NX`: set only if absent; reports whether the set
happened (`result === 'OK'`). -/
def redisSetNX (s : RedisKV) (key value : String) : RedisKV × Bool :=
  if (s.entries.lookup key).isSome then (s, false)
  else ({ entries := (key, value) :: s.entries }, true)

/-- `DEL key`. -/
def redisDel (s : RedisKV) (key : String) : RedisKV :=
  { entries := s.entries.filter (fun p => p.1 != key) }

/-- `RedisService.acquireLock`: `set('lock:' + key, '1', 'PX', ttl, 'NX')`.
The stored value is the constant string `'1'`. -/
def acquireLock (s : RedisKV) (key : String) : RedisKV × Bool :=
  redisSetNX s ("lock:" ++ key) "1"

/-- `RedisService.releaseLock`: `del('lock:' + key)` - an unconditional
delete with no comparison of the stored value. -/
def releaseLock (s : RedisKV) (key : String) : RedisKV :=
  redisDel s ("lock:" ++ key)

/-- The lock key used by `processBid`: `bid-processing:{auctionId}`. -/
def bidLockKey (aid : Nat) : String :=
  "bid-processing:" ++ toString aid

/-- The lock protocol of one `processBid` run: attempt the acquisition,
and release in the `finally` block - which runs on every path, including
the path where the acquisition itself failed. Returns the final Redis
state and whether the acquisition succeeded. -/
def processBidLockCycle (s : RedisKV) (aid : Nat) : RedisKV × Bool :=
  let key := bidLockKey aid
  let (s1, acquired) := acquireLock s key
  (releaseLock s1 key, acquired)

/-! ### WebSocket connection limiting
(`WebSocketConnectionLimitService`, per-address path with the default
options: cap 5 per IP, 60 s tracking window, 300 s block) -/

/-- Ephemeral Redis state for one client address: the `ws-block:ip:*` flag
(absolute expiry instant), the `ws-sockets:ip:*` socket set, and the
`ws-connections:ip:*` count string (value and expiry). Times are in
seconds, the unit of the Redis TTLs in the source
(`blockDuration / 1000 = 300`, `windowMs / 1000 = 60`). -/
structure WsIpState where
  blockExpiry : Option Int
  socketSet : List Nat
  countKey : Option (Nat × Int)
  deriving DecidableEq, Repr

/-- No tracked connections, no block. -/
def emptyWsIpState : WsIpState :=
  { blockExpiry := none, socketSet := [], countKey := none }

/-- Whether a TTL'd key still exists at instant `now`. -/
def keyLive (now : Int) : Option Int → Bool
  | none => false
  | some exp => now < exp

/-- The value read from the `ws-connections:ip:*` key
(`parseInt(ipConnections)`, `0` when the key is absent or expired). -/
def ipCountValue (now : Int) (s : WsIpState) : Nat :=
  match s.countKey with
  | some (v, exp) => if now < exp then v else 0
  | none => 0

/-- Result shape of `checkConnectionLimit`. -/
structure CheckResult where
  allowed : Bool
  reason : Option String
  retryAfter : Option Int
  deriving DecidableEq, Repr

/-- `WebSocketConnectionLimitService.checkConnectionLimit(clientIP)` (no
`userId`, as in the gateway's pre-authentication call): short-circuit on a
live block flag with `retryAfter` the remaining TTL, otherwise compare the
tracked count against `maxConnectionsPerIP = 5` and on overflow write the
block flag for `blockDuration / 1000 = 300` seconds. -/
def checkConnectionLimit (now : Int) (s : WsIpState) :
    WsIpState × CheckResult :=
  if keyLive now s.blockExpiry then
    let ttl := (s.blockExpiry.getD 0) - now
    (s, { allowed := false
          reason := some "IP temporarily blocked due to too many connections"
          retryAfter := some (if ttl > 0 then ttl else 300) })
  else
    if ipCountValue now s ≥ 5 then
      ({ s with blockExpiry := some (now + 300) },
       { allowed := false
         reason := some "Too many connections from this IP address"
         retryAfter := some 300 })
    else
      (s, { allowed := true, reason := none, retryAfter := none })

/-- `WebSocketConnectionLimitService.trackConnection` (per-address part):
`SADD` the socket id, write the set cardinality into the count key, refresh
both TTLs to `windowMs / 1000 = 60` seconds. -/
def trackConnection (now : Int) (sid : Nat) (s : WsIpState) : WsIpState :=
  let set1 := if s.socketSet.contains sid then s.socketSet
              else s.socketSet ++ [sid]
  { s with socketSet := set1, countKey := some (set1.length, now + 60) }

/-- Tracking a sequence of connections in order. -/
def trackMany (now : Int) (sids : List Nat) (s : WsIpState) : WsIpState :=
  sids.foldl (fun st sid => trackConnection now sid st) s

/-! ### Gateway `placeBid` intent and the queue adapter publish
(`WebsocketGateway.handlePlaceBid`, `RabbitmqService.publishToExchange`) -/

/-- A message published to a RabbitMQ exchange. -/
structure MQMessage where
  exchange : String
  routingKey : String
  auctionId : Nat
  userId : Nat
  bidAmount : Int
  username : String
  socketId : Nat
  eventType : String
  deriving DecidableEq, Repr

/-- Broker adapter state: whether the channel exists (it is `undefined` when
the broker was unreachable at startup), the published messages, and the
count of publishes dropped with a warning. -/
structure MQState where
  channelOpen : Bool
  published : List MQMessage
  droppedWarnings : Nat
  deriving DecidableEq, Repr

/-- `RabbitmqService.publishToExchange`: when the channel is unavailable the
message is dropped with a warning and the call returns normally; it never
throws to the caller. -/
def publishToExchange (s : MQState) (m : MQMessage) : MQState :=
  if s.channelOpen then { s with published := s.published ++ [m] }
  else { s with droppedWarnings := s.droppedWarnings + 1 }

/-- `RabbitmqService.publishBidProcessing`: routes the bid envelope to the
`auction-events` exchange with routing key `bid.placed`. -/
def publishBidProcessing (s : MQState) (aid uid : Nat) (amount : Int)
    (username : String) (sid : Nat) : MQState :=
  publishToExchange s
    { exchange := "auction-events", routingKey := "bid.placed"
      auctionId := aid, userId := uid, bidAmount := amount
      username := username, socketId := sid, eventType := "BID_PLACED" }

/-- The identity attached to an authenticated socket
(`socket.data.user`). -/
structure SocketUser where
  userId : Nat
  username : String
  deriving DecidableEq, Repr

/-- An event emitted back on the originating socket. -/
structure EmitEvent where
  event : String
  message : String
  deriving DecidableEq, Repr

/-- `WebsocketGateway.handlePlaceBid`: build the envelope from the socket's
identity, publish it, and emit the `bidReceived` acknowledgement. No
auction state is consulted and the amount is not validated. When
`socket.data.user` is absent the payload construction throws and the catch
block emits an `error` event instead. -/
def handlePlaceBid (mq : MQState) (user : Option SocketUser) (sid : Nat)
    (aid : Nat) (amount : Int) : MQState × List EmitEvent :=
  match user with
  | none =>
    (mq, [{ event := "error"
            message := "Cannot read properties of undefined" }])
  | some u =>
    let mq1 := publishBidProcessing mq aid u.userId amount u.username sid
    (mq1, [{ event := "bidReceived", message := "Bid is being processed" }])

/-! ### Auction creation (`AuctionsService.create`) -/

/-- `CreateAuctionDto` from `auctions/dto/create-auction.dto.ts`. -/
structure CreateAuctionDto where
  carId : String
  title : String
  description : String
  startTime : Int
  endTime : Int
  startingBid : Int
  deriving DecidableEq, Repr

/-- The `BadRequestException` raised by `AuctionsService.create`. -/
inductive CreateError where
  | startNotBeforeEnd
  deriving DecidableEq, Repr

/-- `AuctionsService.create`: reject `startTime >= endTime`; start
immediately (status ACTIVE, `startTime` replaced by `now`) when
`startTime <= now`, else PENDING with the given `startTime`;
`currentHighestBid` is initialized to `startingBid`. -/
def createAuction (now : Int) (aid : Nat) (dto : CreateAuctionDto) :
    Except CreateError Auction :=
  if dto.startTime ≥ dto.endTime then .error .startNotBeforeEnd
  else
    let shouldStartImmediately := dto.startTime ≤ now
    .ok { auctionId := aid
          carId := dto.carId
          title := dto.title
          description := dto.description
          startTime := if shouldStartImmediately then now else dto.startTime
          endTime := dto.endTime
          startingBid := dto.startingBid
          currentHighestBid := dto.startingBid
          winnerId := none
          status := if shouldStartImmediately then .ACTIVE else .PENDING
          bidCount := 0 }

/-! ### Invariants quantified by the specification -/

/-- The bids of auction `aid` currently flagged `isWinning`. -/
def winningBidsFor (db : Db) (aid : Nat) : List Bid :=
  db.bids.filter (fun b => b.auctionId == aid && b.isWinning)

/-- Spec §8: for every auction at most one bid has `isWinning = true` and,
when one exists, its amount equals the auction's `currentHighestBid`. -/
def winningInvariant (db : Db) : Prop :=
  ∀ a ∈ db.auctions,
    (winningBidsFor db a.auctionId).length ≤ 1 ∧
    ∀ b ∈ winningBidsFor db a.auctionId, b.bidAmount = a.currentHighestBid

/-- Stored bid document ids are below the next fresh id. -/
def bidIdsFresh (db : Db) : Prop :=
  ∀ b ∈ db.bids, b.bidId < db.nextBidId

/-- Every bid flagged `isWinning` has status ACCEPTED. -/
def winningAccepted (db : Db) : Prop :=
  ∀ b ∈ db.bids, b.isWinning = true → b.status = .ACCEPTED

/-- Count of bids of auction `aid` whose status is ACCEPTED
(`countDocuments({auctionId, status: ACCEPTED})`). -/
def acceptedBidCount (db : Db) (aid : Nat) : Nat :=
  (db.bids.filter (fun b => b.auctionId == aid && b.status == .ACCEPTED)).length

/-- Count of bids of auction `aid` whose status is ACCEPTED or OUTBID,
i.e. the bids that were accepted at some point. -/
def settledBidCount (db : Db) (aid : Nat) : Nat :=
  (db.bids.filter (fun b => b.auctionId == aid &&
    (b.status == .ACCEPTED || b.status == .OUTBID))).length

/-- For every auction, `bidCount` equals the number of ever-accepted bids
(status ACCEPTED or OUTBID). -/
def bidCountInvariant (db : Db) : Prop :=
  ∀ a ∈ db.auctions, settledBidCount db a.auctionId = a.bidCount

/-! ### Concrete states used by witnesses and counterexamples -/

/-- A freshly created ACTIVE auction (starting bid 100, window [0, 1000]). -/
def exAuction : Auction :=
  { auctionId := 1, carId := "CAR001", title := "T", description := "D"
    startTime := 0, endTime := 1000, startingBid := 100
    currentHighestBid := 100, winnerId := none, status := .ACTIVE
    bidCount := 0 }

/-- A store with one ACTIVE auction, two users and no bids. -/
def exDb : Db :=
  { auctions := [exAuction], bids := [], users := [1, 2], nextBidId := 0 }

/-- An envelope for a bid by user `u` of amount `amt` on `exAuction`. -/
def exEnv (u : Nat) (amt : Int) : BidEnvelope :=
  { auctionId := 1, userId := u, bidAmount := amt, username := "u"
    socketId := 0 }

/-- An ACTIVE auction whose current highest bid is 500. -/
def exAuction500 : Auction :=
  { auctionId := 2, carId := "CAR002", title := "U", description := "D"
    startTime := 0, endTime := 1000, startingBid := 500
    currentHighestBid := 500, winnerId := none, status := .ACTIVE
    bidCount := 0 }

/-- A store containing `exAuction500`, two users and no bids. -/
def exDb500 : Db :=
  { auctions := [exAuction500], bids := [], users := [1, 2], nextBidId := 0 }

end AuctionBidding

deriving instance DecidableEq for Except

namespace AuctionBidding

/-! ### Helper lemmas -/

/-- Looking up a key after filtering that key out yields nothing. -/
lemma lookup_filter_ne (l : List (String × String)) (k : String) :
    (l.filter (fun p => p.1 != k)).lookup k = none := by
  induction l with
  | nil => rfl
  | cons p l ih =>
    by_cases hp : p.1 = k
    · simpa [List.filter_cons, hp] using ih
    · have hk : (k == p.1) = false := beq_false_of_ne (Ne.symm hp)
      simp [List.filter_cons, hp, List.lookup, hk, ih]

/-- `find?` on the auction collection after `updateAuctionHighest` returns
the updated document. -/
lemma find?_updateAuctionHighest (l : List Auction) (aid : Nat) (amt : Int)
    (uid : Nat) (a : Auction)
    (h : l.find? (fun x => x.auctionId == aid) = some a) :
    (updateAuctionHighest l aid amt uid).find? (fun x => x.auctionId == aid) =
      some { a with currentHighestBid := amt, winnerId := some uid,
                    bidCount := a.bidCount + 1 } := by
  induction l with
  | nil => simp at h
  | cons x l ih =>
    unfold updateAuctionHighest at ih ⊢
    by_cases hx : (x.auctionId == aid) = true
    · rw [List.find?_cons_of_pos (p := fun x : Auction => x.auctionId == aid) l hx] at h
      injection h with h
      subst h
      simp only [List.map_cons, if_pos hx]
      exact List.find?_cons_of_pos (p := fun x : Auction => x.auctionId == aid) _ hx
    · rw [List.find?_cons_of_neg (p := fun x : Auction => x.auctionId == aid) l hx] at h
      simp only [List.map_cons, if_neg hx]
      rw [List.find?_cons_of_neg (p := fun x : Auction => x.auctionId == aid) _ hx]
      exact ih h

/-- Full characterization of a successful `processBid` validation. -/
lemma processBidValidate_ok_iff (db : Db) (now : Int) (e : BidEnvelope)
    (a : Auction) :
    processBidValidate db now e = .ok a ↔
      findAuction db e.auctionId = some a ∧ a.status = .ACTIVE ∧
      a.startTime ≤ now ∧ now ≤ a.endTime ∧
      minBidAmount a ≤ e.bidAmount ∧ e.userId ∈ db.users := by
  constructor
  · intro hv
    unfold processBidValidate at hv
    cases hfa : findAuction db e.auctionId with
    | none => rw [hfa] at hv; exact absurd hv (by simp)
    | some auction =>
      rw [hfa] at hv
      dsimp only at hv
      by_cases h1 : (auction.status != .ACTIVE) = true
      · rw [if_pos h1] at hv; exact absurd hv (by simp)
      rw [if_neg h1] at hv
      by_cases h2 : now < auction.startTime
      · rw [if_pos h2] at hv; exact absurd hv (by simp)
      rw [if_neg h2] at hv
      by_cases h3 : now > auction.endTime
      · rw [if_pos h3] at hv; exact absurd hv (by simp)
      rw [if_neg h3] at hv
      by_cases h4 : e.bidAmount < minBidAmount auction
      · rw [if_pos h4] at hv; exact absurd hv (by simp)
      rw [if_neg h4] at hv
      by_cases h5 : (!db.users.contains e.userId) = true
      · rw [if_pos h5] at hv; exact absurd hv (by simp)
      rw [if_neg h5] at hv
      have ha : auction = a := by simpa using hv
      subst ha
      refine ⟨rfl, ?_, by omega, by omega, by omega, ?_⟩
      · simpa [bne] using h1
      · simpa using h5
  · rintro ⟨h1, h2, h3, h4, h5, h6⟩
    unfold processBidValidate
    rw [h1]
    simp [h2, not_lt.mpr h3, not_lt.mpr h4, not_lt.mpr h5, h6]

/-- On successful validation `processBid` performs the write and returns
the updated auction document. -/
lemma processBid_ok_of_validate (db : Db) (now : Int) (e : BidEnvelope)
    (a : Auction) (hv : processBidValidate db now e = .ok a) :
    processBid db now true e =
      .ok (processBidWrite db now e,
           { a with currentHighestBid := e.bidAmount
                    winnerId := some e.userId
                    bidCount := a.bidCount + 1 }) := by
  have hfind : findAuction db e.auctionId = some a :=
    ((processBidValidate_ok_iff db now e a).mp hv).1
  have hupd : findAuction (processBidWrite db now e) e.auctionId =
      some { a with currentHighestBid := e.bidAmount
                    winnerId := some e.userId
                    bidCount := a.bidCount + 1 } := by
    have h := find?_updateAuctionHighest db.auctions e.auctionId e.bidAmount
      e.userId a hfind
    unfold findAuction at hfind ⊢
    unfold processBidWrite
    exact h
  simp only [processBid, Bool.not_true, Bool.false_eq_true, if_false, hv, hupd]

/-! ### C2 - time window boundary -/

/-- C2 counterexample: a bid dequeued when the server time equals the
auction's `endTime` (all other validations passing) is accepted, not
rejected with the "ended" reason: `exAuction.endTime = 1000`. -/
theorem processBid_endTime_accepted_counterexample :
    (processBid exDb 1000 true (exEnv 1 200)).isOk = true ∧
    processBid exDb 1000 true (exEnv 1 200) ≠ .error .auctionEnded := by
  constructor
  · decide
  · intro h
    exact absurd (congrArg Except.isOk h) (by decide)

/-- C2 amended: the accepted time window of `processBid` is the inclusive
interval `[startTime, endTime]`: a bid dequeued at `endTime` (all other
validations passing) is accepted, and a bid dequeued at `endTime + 1`
is rejected with the "ended" reason. -/
theorem processBid_window_inclusive (db : Db) (e : BidEnvelope) (a : Auction)
    (hfind : findAuction db e.auctionId = some a)
    (hactive : a.status = .ACTIVE)
    (hse : a.startTime ≤ a.endTime)
    (hamt : minBidAmount a ≤ e.bidAmount)
    (huser : e.userId ∈ db.users) :
    (processBid db a.endTime true e).isOk = true ∧
    processBid db (a.endTime + 1) true e = .error .auctionEnded := by
  constructor
  · have hv : processBidValidate db a.endTime e = .ok a :=
      (processBidValidate_ok_iff db a.endTime e a).mpr
        ⟨hfind, hactive, hse, le_refl _, hamt, huser⟩
    rw [processBid_ok_of_validate db a.endTime e a hv]
    rfl
  · have h1 : ¬ (a.endTime + 1 < a.startTime) := by omega
    have h2 : a.endTime + 1 > a.endTime := by omega
    simp [processBid, processBidValidate, hfind, hactive, h1, h2]

/-- Witness for C2 amended on the concrete store `exDb`. -/
theorem processBid_window_inclusive_witness :
    (processBid exDb exAuction.endTime true (exEnv 1 200)).isOk = true ∧
    processBid exDb (exAuction.endTime + 1) true (exEnv 1 200) =
      .error .auctionEnded :=
  processBid_window_inclusive exDb (exEnv 1 200) exAuction
    (by decide) (by decide) (by decide) (by decide) (by decide)

/-! ### C3 - minimum increment boundary -/

/-- C3: for a bid on an ACTIVE auction inside its time window by an existing
user, an amount exactly equal to `(currentHighestBid or startingBid) + 100`
is accepted by the Processor, and an amount one minor unit less is rejected
with the too-low reason. -/
theorem processBid_min_increment (db : Db) (e : BidEnvelope) (a : Auction)
    (now : Int)
    (hfind : findAuction db e.auctionId = some a)
    (hactive : a.status = .ACTIVE)
    (h1 : a.startTime ≤ now) (h2 : now ≤ a.endTime)
    (huser : e.userId ∈ db.users) :
    (processBid db now true { e with bidAmount := minBidAmount a }).isOk
      = true ∧
    processBid db now true { e with bidAmount := minBidAmount a - 1 } =
      .error (.bidTooLow (minBidAmount a)) := by
  constructor
  · have hv : processBidValidate db now
        { e with bidAmount := minBidAmount a } = .ok a :=
      (processBidValidate_ok_iff db now _ a).mpr
        ⟨hfind, hactive, h1, h2, le_refl _, huser⟩
    rw [processBid_ok_of_validate db now _ a hv]
    rfl
  · have hlow : minBidAmount a - 1 < minBidAmount a := by omega
    simp [processBid, processBidValidate, hfind, hactive,
      not_lt.mpr h1, not_lt.mpr h2, hlow]

/-- Witness for C3 on the concrete store `exDb`
(`minBidAmount exAuction = 200`). -/
theorem processBid_min_increment_witness :
    (processBid exDb 10 true
      { exEnv 1 0 with bidAmount := minBidAmount exAuction }).isOk = true ∧
    processBid exDb 10 true
      { exEnv 1 0 with bidAmount := minBidAmount exAuction - 1 } =
      .error (.bidTooLow (minBidAmount exAuction)) :=
  processBid_min_increment exDb (exEnv 1 0) exAuction 10
    (by decide) (by decide) (by decide) (by decide) (by decide)

/-- A successful `processBid` run passed validation. -/
lemma processBid_isOk_validate (db : Db) (now : Int) (e : BidEnvelope)
    (h : (processBid db now true e).isOk = true) :
    ∃ a, processBidValidate db now e = .ok a := by
  unfold processBid at h
  simp only [Bool.not_true, Bool.false_eq_true, if_false] at h
  cases hv : processBidValidate db now e with
  | error err => rw [hv] at h; simp [Except.isOk, Except.toBool] at h
  | ok a => exact ⟨a, rfl⟩

/-! ### C7 - HTTP fallback path versus Processor path -/

/-- C7 counterexample: on the same state (`exAuction500`,
`currentHighestBid = 500`) and the same `{auctionId, userId, amount}` input
with amount 501, the HTTP path (`BidsService.placeBid`) accepts while the
Processor (`BidProcessorService.processBid`) rejects with the minimum-
increment reason, so the two paths do not produce the same outcome. -/
theorem placeBid_processBid_divergence_counterexample :
    (placeBid exDb500 10
      { auctionId := 2, bidAmount := 501, userId := 2 }).isOk = true ∧
    processBid exDb500 10 true
      { auctionId := 2, userId := 2, bidAmount := 501, username := "u"
        socketId := 0 } = .error (.bidTooLow 600) := by decide

/-- C7 amended: the two paths are not equivalent (the HTTP path accepts any
amount strictly above `currentHighestBid` and rejects a bid from the
current highest bidder, while the Processor requires the 100-unit increment
and allows self-outbidding); what holds is one direction: every envelope
the Processor accepts is also accepted by the HTTP path on the same state,
provided the bidder is not the current highest bidder (positive starting
bids assumed). -/
theorem processor_accept_implies_http_accept (db : Db) (now : Int)
    (e : BidEnvelope)
    (hok : (processBid db now true e).isOk = true)
    (hsb : ∀ a ∈ db.auctions, 0 < a.startingBid)
    (hw : ∀ b ∈ db.bids, b.auctionId = e.auctionId → b.isWinning = true →
      b.userId ≠ e.userId) :
    (placeBid db now
      { auctionId := e.auctionId, bidAmount := e.bidAmount
        userId := e.userId }).isOk = true := by
  obtain ⟨a, hv⟩ := processBid_isOk_validate db now e hok
  obtain ⟨hfind, hactive, h3, h4, h5, h6⟩ :=
    (processBidValidate_ok_iff db now e a).mp hv
  have hmem : a ∈ db.auctions := by
    unfold findAuction at hfind
    exact List.mem_of_find?_eq_some hfind
  have hgt : a.currentHighestBid < e.bidAmount := by
    have hsba := hsb a hmem
    unfold minBidAmount at h5
    by_cases hc : (a.currentHighestBid != 0) = true
    · rw [if_pos hc] at h5; omega
    · rw [if_neg hc] at h5
      have hz : a.currentHighestBid = 0 := by simpa using hc
      omega
  unfold placeBid
  dsimp only
  rw [hfind]
  simp only [hactive, bne_self_eq_false, Bool.false_eq_true, if_false,
    not_lt.mpr h3, not_lt.mpr h4, not_le.mpr hgt, decide_False,
    Bool.or_self, if_true, if_false]
  cases hcw : db.bids.find?
      (fun b => b.auctionId == e.auctionId && b.isWinning) with
  | none => rfl
  | some cw =>
    have hmemb : cw ∈ db.bids := List.mem_of_find?_eq_some hcw
    have hp := List.find?_some hcw
    have haid : cw.auctionId = e.auctionId := by
      have := (Bool.and_eq_true _ _).mp hp
      simpa using this.1
    have hwin : cw.isWinning = true := by
      have := (Bool.and_eq_true _ _).mp hp
      simpa using this.2
    have hne : cw.userId ≠ e.userId := hw cw hmemb haid hwin
    simp [hcw, beq_false_of_ne hne, Except.isOk, Except.toBool]

/-- Witness for C7 amended: amount 600 on `exDb500` is accepted by the
Processor and hence also by the HTTP path. -/
theorem processor_accept_implies_http_accept_witness :
    (placeBid exDb500 10
      { auctionId := 2, bidAmount := 600, userId := 2 }).isOk = true :=
  processor_accept_implies_http_accept exDb500 10
    { auctionId := 2, userId := 2, bidAmount := 600, username := "u"
      socketId := 0 } (by decide) (by decide) (by decide)

/-! ### C8 - per-address connection limiting -/

/-- Tracking a list of distinct, previously untracked sockets appends them
to the socket set, leaves the block flag unchanged, and (when the list is
nonempty) writes the set cardinality into the count key with a fresh 60 s
TTL. -/
lemma trackMany_state (now : Int) (sids : List Nat) (s : WsIpState)
    (hnd : sids.Nodup) (hdisj : ∀ x ∈ sids, x ∉ s.socketSet) :
    (trackMany now sids s).socketSet = s.socketSet ++ sids ∧
    (trackMany now sids s).blockExpiry = s.blockExpiry ∧
    (sids ≠ [] → (trackMany now sids s).countKey =
      some ((trackMany now sids s).socketSet.length, now + 60)) := by
  induction sids generalizing s with
  | nil => simp [trackMany]
  | cons x xs ih =>
    have hx : x ∉ s.socketSet := hdisj x (by simp)
    have hstep : trackConnection now x s =
        { s with socketSet := s.socketSet ++ [x]
                 countKey := some (s.socketSet.length + 1, now + 60) } := by
      simp [trackConnection, hx]
    have hfold : trackMany now (x :: xs) s =
        trackMany now xs (trackConnection now x s) := rfl
    have hxs : x ∉ xs := (List.nodup_cons.mp hnd).1
    have hdisj2 : ∀ y ∈ xs, y ∉ (trackConnection now x s).socketSet := by
      intro y hy
      rw [hstep]
      simp only [List.mem_append, List.mem_singleton]
      rintro (hys | hyx)
      · exact hdisj y (List.mem_cons_of_mem _ hy) hys
      · exact hxs (hyx ▸ hy)
    obtain ⟨ih1, ih2, ih3⟩ :=
      ih (trackConnection now x s) (List.nodup_cons.mp hnd).2 hdisj2
    rw [hfold]
    refine ⟨?_, ?_, fun _ => ?_⟩
    · rw [ih1, hstep]
      simp
    · rw [ih2, hstep]
    · cases xs with
      | nil =>
        simp only [trackMany, List.foldl_nil]
        rw [hstep]
        simp
      | cons z zs => exact ih3 (by simp)

/-- C8: with no block flag present and the per-address state populated by
`trackConnection` for `n` distinct sockets, a `checkConnectionLimit` call
at the same instant is allowed while `n < 5` (so the cap-th concurrent
connection is admitted); when `n` has reached the cap 5, the check is
denied, writes the per-address block flag for the full 300 s duration and
returns `retryAfter = 300`; and while the flag is live every later check
is denied immediately with `retryAfter` equal to the remaining TTL. -/
theorem checkConnectionLimit_cap_behaviour (now : Int) (sids : List Nat)
    (hnd : sids.Nodup) :
    (sids.length < 5 →
      (checkConnectionLimit now
        (trackMany now sids emptyWsIpState)).2.allowed = true) ∧
    (5 ≤ sids.length →
      (checkConnectionLimit now
        (trackMany now sids emptyWsIpState)).2.allowed = false ∧
      (checkConnectionLimit now
        (trackMany now sids emptyWsIpState)).2.retryAfter = some 300 ∧
      (checkConnectionLimit now
        (trackMany now sids emptyWsIpState)).1.blockExpiry =
          some (now + 300) ∧
      ∀ t : Int, now ≤ t → t < now + 300 →
        (checkConnectionLimit t (checkConnectionLimit now
          (trackMany now sids emptyWsIpState)).1).2.allowed = false ∧
        (checkConnectionLimit t (checkConnectionLimit now
          (trackMany now sids emptyWsIpState)).1).2.retryAfter =
            some (now + 300 - t)) := by
  obtain ⟨hset, hblock, hcount⟩ :=
    trackMany_state now sids emptyWsIpState hnd (by simp [emptyWsIpState])
  have hb : (trackMany now sids emptyWsIpState).blockExpiry = none := by
    rw [hblock]
    rfl
  have hlen : (trackMany now sids emptyWsIpState).socketSet.length =
      sids.length := by
    rw [hset]
    simp [emptyWsIpState]
  constructor
  · intro hlt
    by_cases hnil : sids = []
    · subst hnil
      simp [trackMany, emptyWsIpState, checkConnectionLimit, keyLive,
        ipCountValue]
    · have hc := hcount hnil
      have hv : ipCountValue now (trackMany now sids emptyWsIpState) =
          sids.length := by
        rw [ipCountValue, hc]
        simp [hlen, show (now : Int) < now + 60 by omega]
      simp [checkConnectionLimit, hb, keyLive, hv, Nat.not_le.mpr hlt]
  · intro hge
    have hnil : sids ≠ [] := by
      intro h
      rw [h] at hge
      simp at hge
    have hc := hcount hnil
    have hv : ipCountValue now (trackMany now sids emptyWsIpState) =
        sids.length := by
      rw [ipCountValue, hc]
      simp [hlen, show (now : Int) < now + 60 by omega]
    have hden : checkConnectionLimit now (trackMany now sids emptyWsIpState) =
        ({ trackMany now sids emptyWsIpState with
             blockExpiry := some (now + 300) },
         { allowed := false
           reason := some "Too many connections from this IP address"
           retryAfter := some 300 }) := by
      simp [checkConnectionLimit, hb, keyLive, hv, hge]
    refine ⟨by rw [hden], by rw [hden], by rw [hden], fun t h1 h2 => ?_⟩
    rw [hden]
    have hl : keyLive t (some (now + 300)) = true := by
      simp [keyLive]
      omega
    have hp : (0 : Int) < now + 300 - t := by omega
    constructor
    · simp [checkConnectionLimit, hl]
    · simp [checkConnectionLimit, hl]
      omega

/-- Witness for C8: four sockets admit the fifth; five sockets deny, block
for 300 s, and a check 100 s later reports the remaining 200 s. -/
theorem checkConnectionLimit_cap_behaviour_witness :
    (checkConnectionLimit 0
      (trackMany 0 [1, 2, 3, 4] emptyWsIpState)).2.allowed = true ∧
    (checkConnectionLimit 0
      (trackMany 0 [1, 2, 3, 4, 5] emptyWsIpState)).2.allowed = false ∧
    (checkConnectionLimit 0
      (trackMany 0 [1, 2, 3, 4, 5] emptyWsIpState)).2.retryAfter =
        some 300 ∧
    (checkConnectionLimit 100 (checkConnectionLimit 0
      (trackMany 0 [1, 2, 3, 4, 5] emptyWsIpState)).1).2.retryAfter =
        some 200 := by
  have h4 := checkConnectionLimit_cap_behaviour 0 [1, 2, 3, 4] (by decide)
  have h5 := checkConnectionLimit_cap_behaviour 0 [1, 2, 3, 4, 5] (by decide)
  refine ⟨h4.1 (by decide), (h5.2 (by decide)).1, (h5.2 (by decide)).2.1, ?_⟩
  have ht := ((h5.2 (by decide)).2.2.2 100 (by decide) (by decide)).2
  simpa using ht

/-! ### Invariance of the winning-bid and bid-count properties -/

/-- A successful `processBid` run leaves exactly the written store. -/
lemma processBid_ok_write (db : Db) (now : Int) (lock : Bool)
    (e : BidEnvelope) (p : Db × Auction)
    (hp : processBid db now lock e = .ok p) :
    p.1 = processBidWrite db now e := by
  cases lock with
  | false => exact absurd hp (by simp [processBid])
  | true =>
    unfold processBid at hp
    simp only [Bool.not_true, Bool.false_eq_true, if_false] at hp
    cases hv : processBidValidate db now e with
    | error err => rw [hv] at hp; exact absurd hp (by simp)
    | ok a =>
      rw [hv] at hp
      dsimp only at hp
      cases hf : findAuction (processBidWrite db now e) e.auctionId with
      | none => rw [hf] at hp; exact absurd hp (by simp)
      | some u =>
        rw [hf] at hp
        injection hp with hp
        rw [← hp]

/-- After the sweep with an id fresh for the collection, no bid of the
target auction from that collection is still winning. -/
lemma sweep_winning_target (bids : List Bid) (aid nid : Nat)
    (h : ∀ b ∈ bids, b.bidId ≠ nid) :
    (outbidSweep bids aid nid).filter
      (fun b => b.auctionId == aid && b.isWinning) = [] := by
  induction bids with
  | nil => rfl
  | cons b bs ih =>
    have hb : b.bidId ≠ nid := h b (by simp)
    have ihs := ih (fun x hx => h x (by simp [hx]))
    unfold outbidSweep at ihs ⊢
    simp only [List.map_cons, List.filter_cons]
    by_cases hc : (b.auctionId == aid && b.isWinning && b.bidId != nid) = true
    · have hsw : sweepFn aid nid b =
          { b with isWinning := false, status := .OUTBID } := by
        simp [sweepFn, hc]
      rw [hsw]
      simpa using ihs
    · have hsw : sweepFn aid nid b = b := by
        simp [sweepFn, hc]
      rw [hsw]
      have hz : (b.bidId != nid) = true := by
        simpa [bne] using hb
      have hpred : (b.auctionId == aid && b.isWinning) = false := by
        cases hw : (b.auctionId == aid && b.isWinning) with
        | false => rfl
        | true => exact absurd (by simp [hw, hz]) hc
      simp only [hpred, Bool.false_eq_true, if_false]
      exact ihs

/-- The sweep does not change the winning bids of any other auction. -/
lemma sweep_winning_other (bids : List Bid) (aid nid X : Nat) (hX : X ≠ aid) :
    (outbidSweep bids aid nid).filter
      (fun b => b.auctionId == X && b.isWinning) =
    bids.filter (fun b => b.auctionId == X && b.isWinning) := by
  induction bids with
  | nil => rfl
  | cons b bs ih =>
    unfold outbidSweep at ih ⊢
    simp only [List.map_cons, List.filter_cons]
    by_cases hc : (b.auctionId == aid && b.isWinning && b.bidId != nid) = true
    · have hsw : sweepFn aid nid b =
          { b with isWinning := false, status := .OUTBID } := by
        simp [sweepFn, hc]
      have haid : b.auctionId = aid := by
        have := (Bool.and_eq_true _ _).mp ((Bool.and_eq_true _ _).mp hc).1
        simpa using this.1
      have hne : (b.auctionId == X) = false :=
        beq_false_of_ne (by rw [haid]; exact fun h => hX h.symm)
      rw [hsw]
      simp only [hne, Bool.false_and, if_false]
      simpa [hne] using ih
    · have hsw : sweepFn aid nid b = b := by
        simp [sweepFn, hc]
      rw [hsw, ih]

/-- The sweep preserves, per auction, the number of bids whose status is
ACCEPTED or OUTBID, provided every winning bid was ACCEPTED. -/
lemma sweep_settled_length (bids : List Bid) (aid nid X : Nat)
    (hacc : ∀ b ∈ bids, b.isWinning = true → b.status = .ACCEPTED) :
    ((outbidSweep bids aid nid).filter
      (fun b => b.auctionId == X &&
        (b.status == .ACCEPTED || b.status == .OUTBID))).length =
    (bids.filter (fun b => b.auctionId == X &&
      (b.status == .ACCEPTED || b.status == .OUTBID))).length := by
  induction bids with
  | nil => rfl
  | cons b bs ih =>
    have ihs := ih (fun x hx hw => hacc x (by simp [hx]) hw)
    unfold outbidSweep at ihs ⊢
    simp only [List.map_cons, List.filter_cons]
    by_cases hc : (b.auctionId == aid && b.isWinning && b.bidId != nid) = true
    · have hsw : sweepFn aid nid b =
          { b with isWinning := false, status := .OUTBID } := by
        simp [sweepFn, hc]
      have hwin : b.isWinning = true := by
        have := (Bool.and_eq_true _ _).mp ((Bool.and_eq_true _ _).mp hc).1
        exact this.2
      have hst : b.status = .ACCEPTED := hacc b (by simp) hwin
      rw [hsw]
      by_cases hx : (b.auctionId == X) = true
      · simp only [hx, hst, Bool.true_and]
        simp [ihs]
      · have hx' : (b.auctionId == X) = false := by
          simpa using hx
        simp only [hx', Bool.false_and, if_false]
        exact ihs
    · have hsw : sweepFn aid nid b = b := by
        simp [sweepFn, hc]
      rw [hsw]
      by_cases hp : (b.auctionId == X &&
          (b.status == BidStatus.ACCEPTED || b.status == BidStatus.OUTBID))
          = true
      · simp only [hp, if_true]
        simp [ihs]
      · have hp' := Bool.eq_false_iff.mpr hp
        simp only [hp', if_false]
        exact ihs

/-- The sweep over the appended new bid leaves the new bid itself
untouched. -/
lemma outbidSweep_append_new (db : Db) (now : Int) (e : BidEnvelope) :
    outbidSweep (db.bids ++ [newBidRecord db now e]) e.auctionId
      (newBidRecord db now e).bidId =
    outbidSweep db.bids e.auctionId (newBidRecord db now e).bidId ++
      [newBidRecord db now e] := by
  unfold outbidSweep
  rw [List.map_append]
  simp [sweepFn]

/-- The winning bids per auction after the write phase: exactly the new bid
for the target auction, unchanged for every other auction. -/
lemma winningBidsFor_processBidWrite (db : Db) (now : Int) (e : BidEnvelope)
    (hfresh : bidIdsFresh db) (X : Nat) :
    winningBidsFor (processBidWrite db now e) X =
      if X = e.auctionId then [newBidRecord db now e]
      else winningBidsFor db X := by
  have hbids : (processBidWrite db now e).bids =
      outbidSweep db.bids e.auctionId (newBidRecord db now e).bidId ++
        [newBidRecord db now e] := by
    show outbidSweep (db.bids ++ [newBidRecord db now e]) e.auctionId
        (newBidRecord db now e).bidId = _
    exact outbidSweep_append_new db now e
  unfold winningBidsFor
  rw [hbids, List.filter_append]
  by_cases hX : X = e.auctionId
  · subst hX
    rw [sweep_winning_target db.bids e.auctionId (newBidRecord db now e).bidId
      (fun b hb => by
        have := hfresh b hb
        show b.bidId ≠ (newBidRecord db now e).bidId
        simp only [newBidRecord]
        omega)]
    simp [newBidRecord]
  · rw [sweep_winning_other db.bids e.auctionId _ X hX]
    have hne : ((newBidRecord db now e).auctionId == X) = false := by
      simp only [newBidRecord]
      exact beq_false_of_ne (fun h => hX h.symm)
    simp [hX, hne]

/-! ### C1 - unique winning bid at the current highest amount -/

/-- C1: if before a `processBid` run every auction has at most one winning
bid whose amount is the auction's `currentHighestBid`, the same holds after
the run completes, whether it accepted or rejected (fresh bid ids
assumed). -/
theorem processBid_winning_invariant (db : Db) (now : Int) (lock : Bool)
    (e : BidEnvelope) (hfresh : bidIdsFresh db)
    (hinv : winningInvariant db) :
    winningInvariant (processBidState db now lock e) := by
  unfold processBidState
  cases hp : processBid db now lock e with
  | error err => exact hinv
  | ok p =>
    dsimp only
    rw [processBid_ok_write db now lock e p hp]
    intro a2 ha2
    have hauc : (processBidWrite db now e).auctions =
        updateAuctionHighest db.auctions e.auctionId e.bidAmount e.userId :=
      rfl
    rw [hauc] at ha2
    unfold updateAuctionHighest at ha2
    obtain ⟨a, ha, hga⟩ := List.mem_map.mp ha2
    by_cases hc : (a.auctionId == e.auctionId) = true
    · rw [if_pos hc] at hga
      have haid : a.auctionId = e.auctionId := by simpa using hc
      have ha2id : a2.auctionId = e.auctionId := by
        rw [← hga]
        exact haid
      rw [winningBidsFor_processBidWrite db now e hfresh a2.auctionId,
        if_pos ha2id]
      refine ⟨by simp, fun b hb => ?_⟩
      have hbnb : b = newBidRecord db now e := by simpa using hb
      rw [hbnb, ← hga]
      rfl
    · rw [if_neg hc] at hga
      have haid : a2.auctionId ≠ e.auctionId := by
        rw [← hga]
        simpa using hc
      rw [winningBidsFor_processBidWrite db now e hfresh a2.auctionId,
        if_neg haid, ← hga]
      exact hinv a ha

/-- Witness for C1 on the concrete store `exDb`. -/
theorem processBid_winning_invariant_witness :
    winningInvariant (processBidState exDb 10 true (exEnv 1 200)) :=
  processBid_winning_invariant exDb 10 true (exEnv 1 200)
    (by simp [bidIdsFresh, exDb])
    (by simp [winningInvariant, winningBidsFor, exDb])

/-! ### C4 - bidCount versus ACCEPTED bids -/

/-- C4 counterexample: two sequentially accepted Processor bids on one
auction leave exactly one bid with status ACCEPTED (the outbid sweep
rewrote the first one to OUTBID) while the auction's `bidCount` is 2, so
the number of ACCEPTED bids does not equal `bidCount`. -/
theorem acceptedCount_bidCount_counterexample :
    (processBid exDb 10 true (exEnv 1 200)).isOk = true ∧
    (processBid (processBidState exDb 10 true (exEnv 1 200)) 20 true
      (exEnv 2 300)).isOk = true ∧
    acceptedBidCount (processBidState
      (processBidState exDb 10 true (exEnv 1 200)) 20 true (exEnv 2 300))
      1 = 1 ∧
    (findAuction (processBidState
      (processBidState exDb 10 true (exEnv 1 200)) 20 true (exEnv 2 300))
      1).map Auction.bidCount = some 2 := by decide

/-- The number of ever-accepted bids per auction after the write phase:
one more for the target auction, unchanged otherwise. -/
lemma settledBidCount_processBidWrite (db : Db) (now : Int) (e : BidEnvelope)
    (hacc : winningAccepted db) (X : Nat) :
    settledBidCount (processBidWrite db now e) X =
      settledBidCount db X + (if X = e.auctionId then 1 else 0) := by
  have hbids : (processBidWrite db now e).bids =
      outbidSweep db.bids e.auctionId (newBidRecord db now e).bidId ++
        [newBidRecord db now e] := by
    show outbidSweep (db.bids ++ [newBidRecord db now e]) e.auctionId
        (newBidRecord db now e).bidId = _
    exact outbidSweep_append_new db now e
  unfold settledBidCount
  rw [hbids, List.filter_append, List.length_append,
    sweep_settled_length db.bids e.auctionId _ X hacc]
  by_cases hX : X = e.auctionId
  · subst hX
    simp [newBidRecord]
  · have hne : ((newBidRecord db now e).auctionId == X) = false := by
      simp only [newBidRecord]
      exact beq_false_of_ne (fun h => hX h.symm)
    simp [hX, hne]

/-- C4 amended: after every `processBid` run, for every auction the number
of bids with status ACCEPTED *or OUTBID* (the ever-accepted bids) equals
the auction's `bidCount`; the count of currently-ACCEPTED bids alone does
not satisfy the claimed equation, since the outbid sweep rewrites the
status of every previously accepted bid to OUTBID while `bidCount` keeps
counting it. -/
theorem processBid_settled_count_invariant (db : Db) (now : Int)
    (lock : Bool) (e : BidEnvelope) (hacc : winningAccepted db)
    (hinv : bidCountInvariant db) :
    bidCountInvariant (processBidState db now lock e) := by
  unfold processBidState
  cases hp : processBid db now lock e with
  | error err => exact hinv
  | ok p =>
    dsimp only
    rw [processBid_ok_write db now lock e p hp]
    intro a2 ha2
    have hauc : (processBidWrite db now e).auctions =
        updateAuctionHighest db.auctions e.auctionId e.bidAmount e.userId :=
      rfl
    rw [hauc] at ha2
    unfold updateAuctionHighest at ha2
    obtain ⟨a, ha, hga⟩ := List.mem_map.mp ha2
    by_cases hc : (a.auctionId == e.auctionId) = true
    · rw [if_pos hc] at hga
      have haid : a.auctionId = e.auctionId := by simpa using hc
      have ha2id : a2.auctionId = e.auctionId := by
        rw [← hga]
        exact haid
      rw [settledBidCount_processBidWrite db now e hacc a2.auctionId,
        if_pos ha2id]
      have hcnt : a2.bidCount = a.bidCount + 1 := by rw [← hga]
      have hsame : settledBidCount db a2.auctionId = a.bidCount := by
        have := hinv a ha
        rw [ha2id, ← haid]
        exact this
      omega
    · rw [if_neg hc] at hga
      have haid : a2.auctionId ≠ e.auctionId := by
        rw [← hga]
        simpa using hc
      rw [settledBidCount_processBidWrite db now e hacc a2.auctionId,
        if_neg haid, ← hga]
      have := hinv a ha
      omega

/-- Witness for C4 amended on the concrete store `exDb`. -/
theorem processBid_settled_count_invariant_witness :
    bidCountInvariant (processBidState exDb 10 true (exEnv 1 200)) :=
  processBid_settled_count_invariant exDb 10 true (exEnv 1 200)
    (by simp [winningAccepted, exDb])
    (by simp [bidCountInvariant, settledBidCount, exDb, exAuction])

/-! ### C10 - auction creation -/

/-- C10: `AuctionsService.create` rejects every request with
`startTime ≥ endTime`; when `startTime ≤ now` it creates the auction in
ACTIVE status with `startTime` replaced by `now`, otherwise in PENDING
status with the given `startTime`; in both cases `currentHighestBid` is
initialized to `startingBid`. -/
theorem createAuction_spec (now : Int) (aid : Nat) (dto : CreateAuctionDto) :
    (dto.startTime ≥ dto.endTime →
      createAuction now aid dto = .error .startNotBeforeEnd) ∧
    (dto.startTime < dto.endTime → dto.startTime ≤ now →
      createAuction now aid dto = .ok
        { auctionId := aid, carId := dto.carId, title := dto.title
          description := dto.description, startTime := now
          endTime := dto.endTime, startingBid := dto.startingBid
          currentHighestBid := dto.startingBid, winnerId := none
          status := .ACTIVE, bidCount := 0 }) ∧
    (dto.startTime < dto.endTime → now < dto.startTime →
      createAuction now aid dto = .ok
        { auctionId := aid, carId := dto.carId, title := dto.title
          description := dto.description, startTime := dto.startTime
          endTime := dto.endTime, startingBid := dto.startingBid
          currentHighestBid := dto.startingBid, winnerId := none
          status := .PENDING, bidCount := 0 }) := by
  refine ⟨fun h => ?_, fun h1 h2 => ?_, fun h1 h2 => ?_⟩
  · simp [createAuction, h]
  · simp [createAuction, not_le.mpr h1, h2]
  · simp [createAuction, not_le.mpr h1, not_le.mpr h2]

/-- Witness for C10 at concrete inputs. -/
theorem createAuction_spec_witness :
    createAuction 50 9 { carId := "c", title := "t", description := "d",
                         startTime := 10, endTime := 100, startingBid := 7 } =
      .ok { auctionId := 9, carId := "c", title := "t", description := "d",
            startTime := 50, endTime := 100, startingBid := 7,
            currentHighestBid := 7, winnerId := none, status := .ACTIVE,
            bidCount := 0 } :=
  (createAuction_spec 50 9
    { carId := "c", title := "t", description := "d",
      startTime := 10, endTime := 100, startingBid := 7 }).2.1
    (by decide) (by decide)

/-! ### C9 - gateway acknowledgement and broker degradation -/

/-- C9: for every `placeBid` intent on an authenticated socket the Gateway
emits the `bidReceived` acknowledgement carrying only the queued-for-
processing message, for every amount and with no auction state consulted;
and when the broker channel is unavailable the publish attempt is dropped
with a warning (no exception), so the acknowledgement is still emitted and
nothing is published. -/
theorem handlePlaceBid_ack_unconditional (mq : MQState) (u : SocketUser)
    (sid aid : Nat) (amount : Int) :
    (handlePlaceBid mq (some u) sid aid amount).2 =
      [{ event := "bidReceived", message := "Bid is being processed" }] ∧
    (mq.channelOpen = false →
      (handlePlaceBid mq (some u) sid aid amount).1.published = mq.published ∧
      (handlePlaceBid mq (some u) sid aid amount).1.droppedWarnings =
        mq.droppedWarnings + 1) := by
  refine ⟨rfl, fun h => ?_⟩
  simp [handlePlaceBid, publishBidProcessing, publishToExchange, h]

/-- Witness for C9 at concrete inputs (broker disabled). -/
theorem handlePlaceBid_ack_unconditional_witness :
    (handlePlaceBid { channelOpen := false, published := [], droppedWarnings := 0 }
        (some { userId := 1, username := "u" }) 5 1 42).2 =
      [{ event := "bidReceived", message := "Bid is being processed" }] ∧
    (handlePlaceBid { channelOpen := false, published := [], droppedWarnings := 0 }
        (some { userId := 1, username := "u" }) 5 1 42).1.published = [] ∧
    (handlePlaceBid { channelOpen := false, published := [], droppedWarnings := 0 }
        (some { userId := 1, username := "u" }) 5 1 42).1.droppedWarnings = 1 := by
  have h := handlePlaceBid_ack_unconditional
    { channelOpen := false, published := [], droppedWarnings := 0 }
    { userId := 1, username := "u" } 5 1 42
  exact ⟨h.1, (h.2 rfl).1, (h.2 rfl).2⟩

/-! ### C5 - distributed lock ownership -/

/-- C5 counterexample: the lock value stored by `acquireLock` is the
constant `'1'`, not the acquiring worker's identity, and a `processBid` run
that failed to acquire the lock still deletes the current holder's lock in
its `finally` block. -/
theorem lock_release_not_owner_counterexample :
    ((acquireLock { entries := [] } (bidLockKey 7)).1.entries.lookup
        "lock:bid-processing:7" = some "1") ∧
    ((processBidLockCycle (acquireLock { entries := [] } (bidLockKey 7)).1 7).2
        = false) ∧
    ((processBidLockCycle (acquireLock { entries := [] } (bidLockKey 7)).1
        7).1.entries.lookup "lock:bid-processing:7" = none) := by decide

/-- C5 amended: the lock key stores the constant value `'1'` (no holder
identity) and `releaseLock` deletes the key unconditionally, so whenever
the per-auction lock is held, a `processBid` run against that auction fails
to acquire it and nevertheless deletes the holder's lock on its way out. -/
theorem lock_release_unconditional (s : RedisKV) (aid : Nat) (v : String)
    (h : s.entries.lookup ("lock:" ++ bidLockKey aid) = some v) :
    (processBidLockCycle s aid).2 = false ∧
    (processBidLockCycle s aid).1.entries.lookup
      ("lock:" ++ bidLockKey aid) = none := by
  have hsome : (s.entries.lookup ("lock:" ++ bidLockKey aid)).isSome := by
    rw [h]; rfl
  constructor
  · simp [processBidLockCycle, acquireLock, redisSetNX, hsome]
  · simp [processBidLockCycle, acquireLock, redisSetNX, hsome, releaseLock,
      redisDel, lookup_filter_ne]

/-- Witness for C5 amended at a concrete held lock. -/
theorem lock_release_unconditional_witness :
    (processBidLockCycle { entries := [("lock:bid-processing:7", "1")] } 7).2
      = false ∧
    (processBidLockCycle { entries := [("lock:bid-processing:7", "1")] }
      7).1.entries.lookup "lock:bid-processing:7" = none := by
  have h := lock_release_unconditional
    { entries := [("lock:bid-processing:7", "1")] } 7 "1" (by decide)
  simpa [bidLockKey] using h

/-! ### C6 - failure handling of a dequeued bid -/

/-- C6: whenever `processBid` raises any exception, the consumer nacks the
message without requeue, a BID_FAILED notification addressed to the
originating user and carrying the rejection reason is published, an audit
entry with `success = false` and the reason is published, the lock is
released, and the store is unchanged. -/
theorem consumeBidMessage_failure_handling (db : Db) (now : Int)
    (lockAcquired : Bool) (e : BidEnvelope) (err : BidError)
    (h : processBid db now lockAcquired e = .error err) :
    consumeBidMessage db now lockAcquired e =
      { db := db
        action := .nackNoRequeue
        notices := [{ ntype := "BID_FAILED", userId := some e.userId
                      auctionId := e.auctionId
                      message := "Failed to place bid: " ++ err.message }]
        audits := [{ action := "BID_FAILED", auctionId := e.auctionId
                     userId := e.userId, success := false
                     errorDetail := some err.message }]
        lockReleased := true } := by
  simp [consumeBidMessage, h, handleFailedBid]

/-- Witness for C6: a bid on a nonexistent auction. -/
theorem consumeBidMessage_failure_handling_witness :
    consumeBidMessage exDb 10 true
      { auctionId := 99, userId := 1, bidAmount := 200, username := "u"
        socketId := 0 } =
      { db := exDb
        action := .nackNoRequeue
        notices := [{ ntype := "BID_FAILED", userId := some 1
                      auctionId := 99
                      message := "Failed to place bid: Auction not found" }]
        audits := [{ action := "BID_FAILED", auctionId := 99
                     userId := 1, success := false
                     errorDetail := some "Auction not found" }]
        lockReleased := true } :=
  consumeBidMessage_failure_handling exDb 10 true
    { auctionId := 99, userId := 1, bidAmount := 200, username := "u"
      socketId := 0 } .auctionNotFound (by decide)

end AuctionBidding
